import Mathlib

/-!
# Verification of `memc_load_multithreading.py`

A shallow embedding of the concurrent memcache loader. Byte strings and
decoded text are both modelled as `List Nat` (byte values, respectively
Unicode code points). Python's builtin text operations (`bytes.strip`,
`str.strip`, `str.split`, `int`, `float`, `str.isdigit`) are modelled on
the ASCII range, which covers every input class the program's data format
uses; `float` values are modelled as exact rationals. Fallible Python
code is modelled with `Option`/`Except`; the exceptions that can escape
`parse_appsinstalled` are reified in `PyExn`.
-/

/-- Exceptions that can escape the per-line processing code: a
`UnicodeDecodeError` from `bytes.decode('utf-8')` and a `ValueError` from
the five-way tuple unpacking in `parse_appsinstalled`. -/
inductive PyExn where
  | unicodeDecodeError
  | valueError
deriving DecidableEq, Repr

/-- ASCII decimal digit test (`'0'..'9'`). -/
def isAsciiDigit (c : Nat) : Bool := 48 ≤ c && c ≤ 57

/-- Whitespace stripped by `bytes.strip()`: tab, LF, VT, FF, CR, space. -/
def isAsciiWs (c : Nat) : Bool :=
  c = 9 || c = 10 || c = 11 || c = 12 || c = 13 || c = 32

/-- Whitespace stripped by `str.strip()`: the ASCII whitespace plus the
Unicode space code points recognised by `str.isspace`. -/
def isPyStrWs (c : Nat) : Bool :=
  isAsciiWs c || c = 28 || c = 29 || c = 30 || c = 31 || c = 133 || c = 160 ||
  c = 5760 || (8192 ≤ c && c ≤ 8202) || c = 8232 || c = 8233 || c = 8239 ||
  c = 8287 || c = 12288

/-- Strip characters satisfying `p` from both ends of a string
(Python's `strip`). -/
def stripWith (p : Nat → Bool) (s : List Nat) : List Nat :=
  ((s.dropWhile p).reverse.dropWhile p).reverse

/-- Python's `str.split(sep)` for a one-character separator: splits at every
occurrence, keeping empty pieces; the empty string yields `[[]]`. -/
def splitOnChar (sep : Nat) : List Nat → List (List Nat)
  | [] => [[]]
  | c :: rest =>
    let r := splitOnChar sep rest
    if c = sep then [] :: r
    else
      match r with
      | h :: t => (c :: h) :: t
      | [] => [[c]]

/-- Strict UTF-8 decoding of a byte list into code points, as performed by
`bytes.decode('utf-8')`: rejects continuation-byte leads, overlong forms,
surrogates and code points above U+10FFFF. `none` models
`UnicodeDecodeError`. -/
def utf8Decode : List Nat → Option (List Nat)
  | [] => some []
  | b :: rest =>
    if b < 128 then
      match utf8Decode rest with
      | some cps => some (b :: cps)
      | none => none
    else if b < 194 then none
    else if b < 224 then
      match rest with
      | b2 :: rest2 =>
        if 128 ≤ b2 && b2 < 192 then
          match utf8Decode rest2 with
          | some cps => some (((b - 192) * 64 + (b2 - 128)) :: cps)
          | none => none
        else none
      | [] => none
    else if b < 240 then
      match rest with
      | b2 :: b3 :: rest3 =>
        if (if b = 224 then 160 ≤ b2 else 128 ≤ b2) &&
           (if b = 237 then b2 < 160 else b2 < 192) &&
           (128 ≤ b3 && b3 < 192) then
          match utf8Decode rest3 with
          | some cps =>
            some (((b - 224) * 4096 + (b2 - 128) * 64 + (b3 - 128)) :: cps)
          | none => none
        else none
      | _ => none
    else if b < 245 then
      match rest with
      | b2 :: b3 :: b4 :: rest4 =>
        if (if b = 240 then 144 ≤ b2 else 128 ≤ b2) &&
           (if b = 244 then b2 < 144 else b2 < 192) &&
           (128 ≤ b3 && b3 < 192) && (128 ≤ b4 && b4 < 192) then
          match utf8Decode rest4 with
          | some cps =>
            some (((b - 240) * 262144 + (b2 - 128) * 4096 +
                   (b3 - 128) * 64 + (b4 - 128)) :: cps)
          | none => none
        else none
      | _ => none
    else none

/-- Value of a list of ASCII digits read in base 10. -/
def digitsToNat (ds : List Nat) : Nat := ds.foldl (fun a c => a * 10 + (c - 48)) 0

/-- Python's `int(str)` on already-stripped text: an optional sign followed
by a non-empty run of digits (digit-group underscores, which the input
format never uses, are not modelled). `none` models `ValueError`. -/
def pyIntCore (s : List Nat) : Option Int :=
  match s with
  | 43 :: rest =>
    if !rest.isEmpty && rest.all isAsciiDigit then some (digitsToNat rest) else none
  | 45 :: rest =>
    if !rest.isEmpty && rest.all isAsciiDigit then some (-(digitsToNat rest : Int)) else none
  | _ =>
    if !s.isEmpty && s.all isAsciiDigit then some (digitsToNat s) else none

/-- Python's `int(str)` including the leading/trailing whitespace stripping
that `int` itself performs. -/
def pyInt (s : List Nat) : Option Int := pyIntCore (stripWith isPyStrWs s)

/-- Python's `str.isdigit` restricted to the ASCII range: non-empty and all
decimal digits. -/
def pyIsdigit (s : List Nat) : Bool := !s.isEmpty && s.all isAsciiDigit

/-- Optional exponent suffix of a Python float literal, applied to the
already-parsed mantissa `num / den` (kept as an integer numerator and a
natural denominator so that the value stays kernel-computable). -/
def pyFloatExp (num : Int) (den : Nat) (r : List Nat) : Option ℚ :=
  match r with
  | [] => some (mkRat num den)
  | c :: rest =>
    if c = 101 || c = 69 then
      match rest with
      | 43 :: ds =>
        if !ds.isEmpty && ds.all isAsciiDigit then
          some (mkRat (num * 10 ^ digitsToNat ds) den)
        else none
      | 45 :: ds =>
        if !ds.isEmpty && ds.all isAsciiDigit then
          some (mkRat num (den * 10 ^ digitsToNat ds))
        else none
      | ds =>
        if !ds.isEmpty && ds.all isAsciiDigit then
          some (mkRat (num * 10 ^ digitsToNat ds) den)
        else none
    else none

/-- Unsigned part of Python's `float(str)`: `digits [. digits] [exp]` or
`. digits [exp]`, with the value taken as an exact rational. -/
def pyFloatCore (s : List Nat) : Option ℚ :=
  let ip := s.takeWhile isAsciiDigit
  let r1 := s.dropWhile isAsciiDigit
  match r1 with
  | 46 :: rest =>
    let fp := rest.takeWhile isAsciiDigit
    let r2 := rest.dropWhile isAsciiDigit
    if ip.isEmpty && fp.isEmpty then none
    else
      pyFloatExp ((digitsToNat ip * 10 ^ fp.length + digitsToNat fp : Nat) : Int)
        (10 ^ fp.length) r2
  | _ =>
    if ip.isEmpty then none else pyFloatExp ((digitsToNat ip : Nat) : Int) 1 r1

/-- Python's `float(str)` with the value modelled as an exact rational
(the non-finite literals `inf`/`nan`, which the program's geo fields never
carry, are not modelled). `none` models `ValueError`. -/
def pyFloat (s : List Nat) : Option ℚ :=
  match stripWith isPyStrWs s with
  | 43 :: rest => pyFloatCore rest
  | 45 :: rest => (pyFloatCore rest).map (fun q => -q)
  | t => pyFloatCore t

deriving instance DecidableEq for Except

/-- The `AppsInstalled` namedtuple. -/
structure AppsInstalled where
  dev_type : List Nat
  dev_id : List Nat
  lat : ℚ
  lon : ℚ
  apps : List Int
deriving DecidableEq, Repr

/-- The tab and comma separator code points. -/
def tabChar : Nat := 9

/-- Comma separator code point. -/
def commaChar : Nat := 44

/-- Body of `parse_appsinstalled` after a successful UTF-8 decode: strip,
split on tab; fewer than 5 fields or an empty `dev_type`/`dev_id` or
unparseable geo coordinates yield `.ok none`; more than 5 fields make the
five-way tuple unpacking raise `ValueError` (`.error .valueError`). The
apps field is parsed strictly first; if any element fails `int`, the
lenient fallback keeps only the elements passing `isdigit`. -/
def parse_decoded (text : List Nat) : Except PyExn (Option AppsInstalled) :=
  let t := stripWith isPyStrWs text
  let line_parts := splitOnChar tabChar t
  if line_parts.length < 5 then .ok none
  else
    match line_parts with
    | [dev_type, dev_id, lat, lon, raw_apps] =>
      if dev_type = [] ∨ dev_id = [] then .ok none
      else
        let appParts := splitOnChar commaChar raw_apps
        let apps :=
          match appParts.mapM pyInt with
          | some l => l
          | none => (appParts.filter pyIsdigit).filterMap pyInt
        match pyFloat lat, pyFloat lon with
        | some latq, some lonq => .ok (some ⟨dev_type, dev_id, latq, lonq, apps⟩)
        | _, _ => .ok none
    | _ => .error .valueError

/-- `parse_appsinstalled`: decode as UTF-8 (an undecodable line raises
`UnicodeDecodeError`, modelled as `.error .unicodeDecodeError`), then
process the decoded text. -/
def parse_appsinstalled (line : List Nat) : Except PyExn (Option AppsInstalled) :=
  match utf8Decode line with
  | none => .error .unicodeDecodeError
  | some text => parse_decoded text

/-- Modelled from the spec: the `UserApps` protobuf message built by
`insert_appsinstalled` (the generated module `appsinstalled_pb2` is not
part of the sources). Fields: `lat` (double), `lon` (double), `apps`
(repeated integer); doubles are modelled as exact rationals. -/
structure UserApps where
  lat : ℚ
  lon : ℚ
  apps : List Int
deriving DecidableEq, Repr

/-- Base-128 varint byte encoding of a natural number (little-endian
groups of 7 bits, high bit marking continuation). -/
def encodeVarint (n : Nat) : List Nat :=
  if h : n < 128 then [n]
  else (n % 128 + 128) :: encodeVarint (n / 128)
decreasing_by exact Nat.div_lt_self (by omega) (by omega)

/-- Varint decoding; returns the value and the remaining bytes. -/
def decodeVarint : List Nat → Option (Nat × List Nat)
  | [] => none
  | b :: rest =>
    if b < 128 then some (b, rest)
    else
      match decodeVarint rest with
      | some (m, r) => some (m * 128 + (b - 128), r)
      | none => none

/-- Zigzag mapping of an integer to a natural number. -/
def zigzag (i : Int) : Nat :=
  if 0 ≤ i then 2 * i.toNat else 2 * (-i).toNat - 1

/-- Inverse of the zigzag mapping. -/
def unzigzag (n : Nat) : Int :=
  if n % 2 = 0 then ((n / 2 : Nat) : Int) else -(((n / 2 : Nat) : Int) + 1)

/-- Modelled from the spec: wire encoding of one rational (a double field)
as the zigzag varint of its numerator followed by the varint of its
denominator. -/
def encodeRatField (q : ℚ) : List Nat :=
  encodeVarint (zigzag q.num) ++ encodeVarint q.den

/-- Decoding of one rational field. -/
def decodeRatField (l : List Nat) : Option (ℚ × List Nat) :=
  match decodeVarint l with
  | none => none
  | some (zn, r1) =>
    match decodeVarint r1 with
    | none => none
    | some (d, r2) => some ((unzigzag zn : ℚ) / (d : ℚ), r2)

/-- Decoding of a run of `n` zigzag-varint integers. -/
def decodeInts : Nat → List Nat → Option (List Int × List Nat)
  | 0, l => some ([], l)
  | n + 1, l =>
    match decodeVarint l with
    | none => none
    | some (z, r) =>
      match decodeInts n r with
      | none => none
      | some (rest, r2) => some (unzigzag z :: rest, r2)

/-- Modelled from the spec: `UserApps.SerializeToString` — a deterministic
binary message holding `lat`, `lon` and the length-prefixed repeated
`apps` field, each introduced by a fixed tag byte. The device type and
device id are not part of the payload. -/
def encodeUserApps (u : UserApps) : List Nat :=
  9 :: encodeRatField u.lat ++ 17 :: encodeRatField u.lon ++
  26 :: encodeVarint u.apps.length ++
  (u.apps.map (fun i => encodeVarint (zigzag i))).flatten

/-- Modelled from the spec: `UserApps.ParseFromString` — the inverse of
`encodeUserApps`, failing on any malformed payload. -/
def decodeUserApps (l : List Nat) : Option UserApps :=
  match l with
  | 9 :: r =>
    match decodeRatField r with
    | none => none
    | some (lat, r1) =>
      match r1 with
      | 17 :: r2 =>
        match decodeRatField r2 with
        | none => none
        | some (lon, r3) =>
          match r3 with
          | 26 :: r4 =>
            match decodeVarint r4 with
            | none => none
            | some (n, r5) =>
              match decodeInts n r5 with
              | none => none
              | some (apps, r6) => if r6 = [] then some ⟨lat, lon, apps⟩ else none
          | _ => none
      | _ => none
  | _ => none

/-- Outcome of `memc.set` on one call: either it returns normally or it
raises (connection, timeout or protocol error). -/
inductive SetOutcome where
  | ok
  | exn
deriving DecidableEq, Repr

/-- Observable result of `insert_appsinstalled`: the returned boolean, how
many pooled client handles were obtained, how many `set` calls were
issued, and the serialized payload. -/
structure InsertResult where
  ok : Bool
  clientGets : Nat
  setCalls : Nat
  payload : List Nat
deriving DecidableEq, Repr

/-- `insert_appsinstalled`: build the `UserApps` message from `lat`, `lon`
and `apps`, serialize it, then in dry-run mode only log; otherwise obtain
the pooled client and issue one `set`. An exception from the write is
caught and turned into `False`; no retry is made. -/
def insert_appsinstalled (appsinstalled : AppsInstalled) (dry_run : Bool)
    (setOut : SetOutcome) : InsertResult :=
  let ua : UserApps := ⟨appsinstalled.lat, appsinstalled.lon, appsinstalled.apps⟩
  let packed := encodeUserApps ua
  if dry_run then ⟨true, 0, 0, packed⟩
  else
    match setOut with
    | .ok => ⟨true, 1, 1, packed⟩
    | .exn => ⟨false, 1, 1, packed⟩

/-- The resolved command-line options the pipeline consumes. -/
structure Options where
  idfa : List Nat
  gaid : List Nat
  adid : List Nat
  dvid : List Nat
  dry : Bool
  workers : Nat
deriving DecidableEq, Repr

/-- The `device_memc` routing table built at the top of `line_worker`:
`device_type ∈ {idfa, gaid, adid, dvid}` maps to the configured endpoint
address; `dict.get` yields `None` for any other key. -/
def device_memc (options : Options) (dev_type : List Nat) : Option (List Nat) :=
  if dev_type = [105, 100, 102, 97] then some options.idfa
  else if dev_type = [103, 97, 105, 100] then some options.gaid
  else if dev_type = [97, 100, 105, 100] then some options.adid
  else if dev_type = [100, 118, 105, 100] then some options.dvid
  else none

/-- Per-line outcome inside `line_worker`: an increment to exactly one of
the two counters, or an exception escaping the worker loop. -/
inductive Outcome where
  | processed
  | error
  | exn (e : PyExn)
deriving DecidableEq, Repr

/-- Whether an outcome is an escaping exception. -/
def Outcome.isExn : Outcome → Bool
  | .exn _ => true
  | _ => false

/-- Observable effect of handling one line in `line_worker`. -/
structure StepResult where
  outcome : Outcome
  clientGets : Nat
  setCalls : Nat
  loggedUnknown : Bool
deriving DecidableEq, Repr

/-- The per-line body of `line_worker`: parse (a raised exception escapes
the loop, which only handles `queue.Empty`); on no-record increment the
error tally; on a missing or empty routed address log the unknown device
type and increment the error tally; otherwise run
`insert_appsinstalled` and increment the processed tally on `True`, the
error tally on `False`. -/
def lineStep (options : Options) (setOut : SetOutcome) (line : List Nat) : StepResult :=
  match parse_appsinstalled line with
  | .error e => ⟨.exn e, 0, 0, false⟩
  | .ok none => ⟨.error, 0, 0, false⟩
  | .ok (some appsinstalled) =>
    match device_memc options appsinstalled.dev_type with
    | none => ⟨.error, 0, 0, true⟩
    | some memc_addr =>
      if memc_addr = [] then ⟨.error, 0, 0, true⟩
      else
        let ins := insert_appsinstalled appsinstalled options.dry setOut
        ⟨if ins.ok then .processed else .error, ins.clientGets, ins.setCalls, false⟩

/-- One lock-guarded tally update: a `(processed, errors)` pair receives
exactly one increment per non-exception outcome. -/
def applyOutcome (s : Nat × Nat) : Outcome → Nat × Nat
  | .processed => (s.1 + 1, s.2)
  | .error => (s.1, s.2 + 1)
  | .exn _ => s

/-- The `line_worker` loop over the lines it dequeues: each line updates
the tally under the lock, except that a raised exception terminates the
worker immediately, leaving the tally untouched and the remaining lines
unprocessed. The escaped exception, if any, is returned alongside the
final tally. -/
def runWorker (options : Options) (oracle : List Nat → SetOutcome) :
    List (List Nat) → Nat × Nat → (Nat × Nat) × Option PyExn
  | [], s => (s, none)
  | line :: rest, s =>
    match (lineStep options (oracle line) line).outcome with
    | .exn e => (s, some e)
    | .processed => runWorker options oracle rest (applyOutcome s .processed)
    | .error => runWorker options oracle rest (applyOutcome s .error)

/-- Final tally obtained by replaying a sequence of lock-guarded tally
updates (one per line outcome, in any interleaved order) from the fresh
`(0, 0)` tally. -/
def statsOf (outs : List Outcome) : Nat × Nat := outs.foldl applyOutcome (0, 0)

/-- The threshold `NORMAL_ERR_RATE = 0.01`. -/
def NORMAL_ERR_RATE : ℚ := 0.01

/-- Verdict logged by `process_file` after the workers drain. -/
inductive Verdict where
  | trivial
  | acceptable (rate : ℚ)
  | high (rate : ℚ)
deriving DecidableEq, Repr

/-- Observable tail of `process_file`: how many times the file was
renamed (`dot_rename`), which verdict was logged, and how many
`errors / processed` divisions were performed. -/
structure FileResult where
  renames : Nat
  verdict : Verdict
  divisions : Nat
deriving DecidableEq, Repr

/-- The verdict code at the end of `process_file`: a zero processed tally
renames immediately with no division; otherwise the error rate
`errors / processed` is computed once and compared against
`NORMAL_ERR_RATE`, and the file is renamed either way. -/
def process_file_verdict (processed errors : Nat) : FileResult :=
  if processed = 0 then ⟨1, .trivial, 0⟩
  else
    let err_rate : ℚ := (errors : ℚ) / (processed : ℚ)
    if err_rate < NORMAL_ERR_RATE then ⟨1, .acceptable err_rate, 1⟩
    else ⟨1, .high err_rate, 1⟩

/-- `process_file` for one worker draining the queue in order: run the
worker over the fed lines starting from a fresh tally; an exception
escaping the worker is re-raised by `future.result()`, otherwise the
final tally is turned into the verdict. -/
def process_file (options : Options) (oracle : List Nat → SetOutcome)
    (lines : List (List Nat)) : Except PyExn FileResult :=
  match runWorker options oracle lines (0, 0) with
  | (s, none) => .ok (process_file_verdict s.1 s.2)
  | (_, some e) => .error e

/-- The default options of the option parser: the four default endpoint
addresses `127.0.0.1:33013` … `127.0.0.1:33016`, dry-run off, 8 workers. -/
def defaultOptions : Options :=
  ⟨[49, 50, 55, 46, 48, 46, 48, 46, 49, 58, 51, 51, 48, 49, 51],
   [49, 50, 55, 46, 48, 46, 48, 46, 49, 58, 51, 51, 48, 49, 52],
   [49, 50, 55, 46, 48, 46, 48, 46, 49, 58, 51, 51, 48, 49, 53],
   [49, 50, 55, 46, 48, 46, 48, 46, 49, 58, 51, 51, 48, 49, 54],
   false, 8⟩

/-- A store that never raises. -/
def oracleOk : List Nat → SetOutcome := fun _ => .ok

/-- A store whose every `set` call raises. -/
def oracleExn : List Nat → SetOutcome := fun _ => .exn

theorem decodeVarint_encodeVarint (n : Nat) (tl : List Nat) :
    decodeVarint (encodeVarint n ++ tl) = some (n, tl) := by
  induction n using Nat.strong_induction_on with
  | _ n ih =>
    rw [encodeVarint]
    by_cases h : n < 128
    · simp [h, decodeVarint]
    · simp only [h, dite_false, List.cons_append, decodeVarint]
      rw [if_neg (by omega), ih (n / 128) (Nat.div_lt_self (by omega) (by omega))]
      show some (n / 128 * 128 + (n % 128 + 128 - 128), tl) = some (n, tl)
      have hn : n / 128 * 128 + (n % 128 + 128 - 128) = n := by omega
      rw [hn]

theorem unzigzag_zigzag (i : Int) : unzigzag (zigzag i) = i := by
  unfold zigzag unzigzag
  split <;> split <;> omega

theorem decodeRatField_encodeRatField (q : ℚ) (tl : List Nat) :
    decodeRatField (encodeRatField q ++ tl) = some (q, tl) := by
  unfold encodeRatField decodeRatField
  rw [List.append_assoc]
  simp only [decodeVarint_encodeVarint]
  rw [unzigzag_zigzag, Rat.num_div_den]

theorem decodeInts_encodeInts (l : List Int) (tl : List Nat) :
    decodeInts l.length ((l.map (fun i => encodeVarint (zigzag i))).flatten ++ tl) =
      some (l, tl) := by
  induction l with
  | nil => simp [decodeInts]
  | cons i is ih =>
    simp only [List.map_cons, List.flatten_cons, List.length_cons, decodeInts,
      List.append_assoc, decodeVarint_encodeVarint, ih, unzigzag_zigzag]

theorem decodeUserApps_encodeUserApps (u : UserApps) :
    decodeUserApps (encodeUserApps u) = some u := by
  have happs := decodeInts_encodeInts u.apps []
  rw [List.append_nil] at happs
  simp [decodeUserApps, encodeUserApps, decodeRatField_encodeRatField,
    decodeVarint_encodeVarint, happs]

theorem insert_payload (r : AppsInstalled) (dry : Bool) (so : SetOutcome) :
    (insert_appsinstalled r dry so).payload = encodeUserApps ⟨r.lat, r.lon, r.apps⟩ := by
  unfold insert_appsinstalled
  cases dry <;> cases so <;> rfl

theorem runWorker_cons_error (o : Options) (oracle : List Nat → SetOutcome)
    (line : List Nat) (rest : List (List Nat)) (s : Nat × Nat)
    (h : (lineStep o (oracle line) line).outcome = .error) :
    runWorker o oracle (line :: rest) s = runWorker o oracle rest (s.1, s.2 + 1) := by
  simp only [runWorker, h, applyOutcome]

theorem runWorker_cons_processed (o : Options) (oracle : List Nat → SetOutcome)
    (line : List Nat) (rest : List (List Nat)) (s : Nat × Nat)
    (h : (lineStep o (oracle line) line).outcome = .processed) :
    runWorker o oracle (line :: rest) s = runWorker o oracle rest (s.1 + 1, s.2) := by
  simp only [runWorker, h, applyOutcome]

theorem runWorker_cons_exn (o : Options) (oracle : List Nat → SetOutcome)
    (line : List Nat) (rest : List (List Nat)) (s : Nat × Nat) (e : PyExn)
    (h : (lineStep o (oracle line) line).outcome = .exn e) :
    runWorker o oracle (line :: rest) s = (s, some e) := by
  simp only [runWorker, h]

theorem statsOf_foldl (outs : List Outcome) (p e : Nat) :
    (outs.foldl applyOutcome (p, e)).1 + (outs.foldl applyOutcome (p, e)).2 =
      p + e + outs.countP (fun t => !t.isExn) := by
  induction outs generalizing p e with
  | nil => simp
  | cons o os ih =>
    cases o <;> simp [applyOutcome, Outcome.isExn, List.countP_cons, ih] <;> omega

/-- C8: the serializer's binary encoding of `(lat, lon, apps)` is
round-trip stable — decoding the encoded payload yields a message equal
to the original — and the payload built by `insert_appsinstalled` depends
only on `lat`, `lon` and `apps`: records differing solely in
`device_type`/`device_id` produce identical payloads. -/
theorem c8_serializer_roundtrip :
    (∀ u : UserApps, decodeUserApps (encodeUserApps u) = some u) ∧
    (∀ (r r2 : AppsInstalled) (dry : Bool) (so : SetOutcome),
      r.lat = r2.lat → r.lon = r2.lon → r.apps = r2.apps →
      (insert_appsinstalled r dry so).payload = (insert_appsinstalled r2 dry so).payload) := by
  refine ⟨decodeUserApps_encodeUserApps, ?_⟩
  intro r r2 dry so hlat hlon happs
  rw [insert_payload, insert_payload, hlat, hlon, happs]

/-- C8 witness: the round trip evaluated on the first sample record of
`prototest`, plus payload equality for two records sharing `lat`, `lon`
and `apps` but with different device identities. -/
theorem c8_serializer_roundtrip_witness :
    decodeUserApps (encodeUserApps ⟨mkRat 1111 20, mkRat 2121 50, [1423, 43, 567, 3, 7, 23]⟩) =
      some ⟨mkRat 1111 20, mkRat 2121 50, [1423, 43, 567, 3, 7, 23]⟩ ∧
    (insert_appsinstalled ⟨[105, 100, 102, 97], [88, 49], mkRat 1111 20, mkRat 2121 50, [10, 30]⟩ false .ok).payload =
      (insert_appsinstalled ⟨[103, 97, 105, 100], [89, 50], mkRat 1111 20, mkRat 2121 50, [10, 30]⟩ false .ok).payload := by
  exact ⟨c8_serializer_roundtrip.1 _,
    c8_serializer_roundtrip.2 _ _ false .ok rfl rfl rfl⟩

/-- C9 (amended): provided no fed line makes the worker raise, the final
tally conserves counts — for any assignment of the fed lines to at least
one worker and any interleaving of the lock-guarded increments, the
replayed tally satisfies `processed + errors =` the number of fed lines,
with each line incrementing exactly one counter exactly once. -/
theorem c9_tally_conservation (o : Options) (oracle : List Nat → SetOutcome)
    (assignment : List (List (List Nat))) (sched : List Outcome)
    (hW : 1 ≤ assignment.length)
    (hperm : sched.Perm (assignment.flatten.map (fun l => (lineStep o (oracle l) l).outcome)))
    (hnoexn : ∀ l ∈ assignment.flatten, ((lineStep o (oracle l) l).outcome).isExn = false) :
    (statsOf sched).1 + (statsOf sched).2 = assignment.flatten.length := by
  have h1 : (statsOf sched).1 + (statsOf sched).2 = sched.countP (fun t => !t.isExn) := by
    simpa [statsOf] using statsOf_foldl sched 0 0
  rw [h1, hperm.countP_eq]
  rw [List.countP_map]
  rw [List.countP_eq_length.mpr (fun l hl => by simp [Function.comp, hnoexn l hl])]

/-- C9 counterexample: with one worker and a single fed line of six
tab-separated fields, the worker terminates (by the escaping
`ValueError`) with the tally still at `(0, 0)`, so
`processed + errors = 0` differs from the one line fed. -/
theorem c9_tally_conservation_counterexample :
    runWorker defaultOptions oracleOk [[97, 9, 98, 9, 99, 9, 100, 9, 101, 9, 102]] (0, 0) =
      ((0, 0), some .valueError) ∧ ¬ (0 + 0 = 1) := by decide

/-- C9 witness: two workers, one fed line each (a malformed three-field
line and a valid mixed-apps line), scheduled in queue order: the tally
sums to the two fed lines. -/
theorem c9_tally_conservation_witness :
    (statsOf (([[[97, 9, 98]],
        [[105, 100, 102, 97, 9, 88, 49, 9, 53, 53, 46, 53, 53, 9, 52, 50, 46, 52, 50, 9,
          49, 48, 44, 97, 98, 99, 44, 51, 48]]] : List (List (List Nat))).flatten.map
        (fun l => (lineStep defaultOptions (oracleOk l) l).outcome))).1 +
      (statsOf (([[[97, 9, 98]],
        [[105, 100, 102, 97, 9, 88, 49, 9, 53, 53, 46, 53, 53, 9, 52, 50, 46, 52, 50, 9,
          49, 48, 44, 97, 98, 99, 44, 51, 48]]] : List (List (List Nat))).flatten.map
        (fun l => (lineStep defaultOptions (oracleOk l) l).outcome))).2 = 2 := by
  have h := c9_tally_conservation defaultOptions oracleOk
    [[[97, 9, 98]],
     [[105, 100, 102, 97, 9, 88, 49, 9, 53, 53, 46, 53, 53, 9, 52, 50, 46, 52, 50, 9,
       49, 48, 44, 97, 98, 99, 44, 51, 48]]] _ (by decide) (List.Perm.refl _) (by decide)
  simpa using h

theorem parse_decoded_too_many_fields (text : List Nat)
    (hlen : 5 < (splitOnChar tabChar (stripWith isPyStrWs text)).length) :
    parse_decoded text = .error .valueError := by
  simp only [parse_decoded]
  generalize hsp : splitOnChar tabChar (stripWith isPyStrWs text) = lp
  rw [hsp] at hlen
  rw [if_neg (by omega)]
  rcases lp with _ | ⟨a, _ | ⟨b, _ | ⟨c, _ | ⟨d, _ | ⟨e, _ | ⟨f, tl⟩⟩⟩⟩⟩⟩
  · simp at hlen
  · simp at hlen
  · simp at hlen
  · simp at hlen
  · simp at hlen
  · simp at hlen
  · rfl

theorem runWorker_all_error (o : Options) (oracle : List Nat → SetOutcome)
    (lines : List (List Nat)) (s : Nat × Nat)
    (h : ∀ l ∈ lines, (lineStep o (oracle l) l).outcome = .error) :
    runWorker o oracle lines s = ((s.1, s.2 + lines.length), none) := by
  induction lines generalizing s with
  | nil => cases s; simp [runWorker]
  | cons l ls ih =>
    rw [runWorker_cons_error o oracle l ls s (h l (by simp))]
    rw [ih _ (fun x hx => h x (List.mem_cons_of_mem l hx))]
    have harith : s.2 + 1 + ls.length = s.2 + (ls.length + 1) := by omega
    simp [harith]

/-- C1: when the final tally has `processed > 0`, the orchestrator renames
the file exactly once, performs the `errors / processed` division exactly
once, and logs acceptance when the rate is below `NORMAL_ERR_RATE = 0.01`
and rejection otherwise. -/
theorem c1_error_rate_verdict (processed errors : Nat) (hp : 0 < processed) :
    (process_file_verdict processed errors).renames = 1 ∧
    (process_file_verdict processed errors).divisions = 1 ∧
    ((errors : ℚ) / (processed : ℚ) < NORMAL_ERR_RATE →
      (process_file_verdict processed errors).verdict =
        .acceptable ((errors : ℚ) / (processed : ℚ))) ∧
    (¬ (errors : ℚ) / (processed : ℚ) < NORMAL_ERR_RATE →
      (process_file_verdict processed errors).verdict =
        .high ((errors : ℚ) / (processed : ℚ))) := by
  have hne : processed ≠ 0 := by omega
  by_cases hr : (errors : ℚ) / (processed : ℚ) < NORMAL_ERR_RATE
  · simp [process_file_verdict, hne, hr]
  · simp [process_file_verdict, hne, hr]

/-- C1 witness: `errors = 1, processed = 199` yields rate `1/199 < 0.01`
(acceptance) and `errors = 3, processed = 100` yields rate `3/100`
(rejection); the rename fires exactly once in each case. -/
theorem c1_error_rate_verdict_witness :
    (process_file_verdict 199 1).renames = 1 ∧
    (process_file_verdict 199 1).verdict = .acceptable ((1 : ℚ) / 199) ∧
    (process_file_verdict 100 3).renames = 1 ∧
    (process_file_verdict 100 3).verdict = .high ((3 : ℚ) / 100) := by
  have h1 := c1_error_rate_verdict 199 1 (by norm_num)
  have h2 := c1_error_rate_verdict 100 3 (by norm_num)
  refine ⟨h1.1, ?_, h2.1, ?_⟩
  · have ha := h1.2.2.1 (by norm_num [NORMAL_ERR_RATE])
    simpa using ha
  · have hb := h2.2.2.2 (by norm_num [NORMAL_ERR_RATE])
    simpa using hb

/-- C2: when the final tally has `processed = 0`, no division is
performed and the file is still renamed exactly once; in particular a
file whose every line is malformed (every line outcome is an error)
completes with the trivial verdict. -/
theorem c2_zero_processed_no_division (processed errors : Nat) (hp : processed = 0)
    (o : Options) (oracle : List Nat → SetOutcome) (lines : List (List Nat))
    (hlines : ∀ l ∈ lines, (lineStep o (oracle l) l).outcome = .error) :
    (process_file_verdict processed errors).divisions = 0 ∧
    (process_file_verdict processed errors).renames = 1 ∧
    (process_file_verdict processed errors).verdict = .trivial ∧
    process_file o oracle lines = .ok ⟨1, .trivial, 0⟩ := by
  subst hp
  have hv : ∀ e, process_file_verdict 0 e = ⟨1, .trivial, 0⟩ := by
    intro e
    simp [process_file_verdict]
  refine ⟨by rw [hv], by rw [hv], by rw [hv], ?_⟩
  unfold process_file
  rw [runWorker_all_error o oracle lines (0, 0) hlines]
  simp [hv]

/-- C2 witness: a tally of `(0, 7)` and a one-line file whose single line
has too few fields both complete trivially with no division. -/
theorem c2_zero_processed_no_division_witness :
    (process_file_verdict 0 7).divisions = 0 ∧
    (process_file_verdict 0 7).renames = 1 ∧
    (process_file_verdict 0 7).verdict = .trivial ∧
    process_file defaultOptions oracleOk [[97, 9, 98]] = .ok ⟨1, .trivial, 0⟩ :=
  c2_zero_processed_no_division 0 7 rfl defaultOptions oracleOk [[97, 9, 98]] (by decide)

/-- C3 (amended): a line that is not valid UTF-8 raises a decode error in
the parser that nothing catches: the line is counted in neither tally,
the exception terminates the worker loop (remaining lines unprocessed),
and the orchestrator re-raises it when collecting the worker result. -/
theorem c3_decode_error_fatal (line : List Nat) (hdec : utf8Decode line = none) :
    parse_appsinstalled line = .error .unicodeDecodeError ∧
    ∀ (o : Options) (oracle : List Nat → SetOutcome) (s : Nat × Nat)
      (rest : List (List Nat)),
      (lineStep o (oracle line) line).outcome = .exn .unicodeDecodeError ∧
      runWorker o oracle (line :: rest) s = (s, some .unicodeDecodeError) ∧
      process_file o oracle (line :: rest) = .error .unicodeDecodeError := by
  have hparse : parse_appsinstalled line = .error .unicodeDecodeError := by
    simp [parse_appsinstalled, hdec]
  refine ⟨hparse, fun o oracle s rest => ?_⟩
  have hstep : (lineStep o (oracle line) line).outcome = .exn .unicodeDecodeError := by
    simp [lineStep, hparse]
  have hrun := runWorker_cons_exn o oracle line rest s .unicodeDecodeError hstep
  refine ⟨hstep, hrun, ?_⟩
  have hrun0 := runWorker_cons_exn o oracle line rest (0, 0) .unicodeDecodeError hstep
  unfold process_file
  rw [hrun0]

/-- C3 counterexample: for the single fed byte line `[255]` the decode
failure is fatal to the worker (the exception escapes) and the error
tally stays at zero — it is not "counted and skipped" as the claim
states. -/
theorem c3_decode_error_claim_counterexample :
    runWorker defaultOptions oracleOk [[255]] (0, 0) =
      ((0, 0), some .unicodeDecodeError) ∧
    parse_appsinstalled [255] = .error .unicodeDecodeError := by decide

/-- C3 amended-claim witness at the concrete undecodable line `[255]`. -/
theorem c3_decode_error_fatal_witness :
    parse_appsinstalled [254] = .error .unicodeDecodeError ∧
    runWorker defaultOptions oracleOk [[254]] (0, 0) =
      ((0, 0), some .unicodeDecodeError) ∧
    process_file defaultOptions oracleOk [[254]] = .error .unicodeDecodeError := by
  have h := c3_decode_error_fatal [254] (by decide)
  have h2 := h.2 defaultOptions oracleOk (0, 0) []
  exact ⟨h.1, h2.2.1, h2.2.2⟩

/-- C10: a UTF-8-decodable line splitting into more than 5 tab-separated
fields does not yield no-record: the five-way unpacking raises
`ValueError`, which escapes the worker loop (whose handler only covers
`queue.Empty`), terminates that worker with the tally untouched, and is
re-raised by the orchestrator when it collects the worker result. -/
theorem c10_too_many_fields_fatal (line text : List Nat)
    (hdec : utf8Decode line = some text)
    (hlen : 5 < (splitOnChar tabChar (stripWith isPyStrWs text)).length) :
    parse_appsinstalled line = .error .valueError ∧
    ∀ (o : Options) (oracle : List Nat → SetOutcome) (s : Nat × Nat)
      (rest : List (List Nat)),
      (lineStep o (oracle line) line).outcome = .exn .valueError ∧
      runWorker o oracle (line :: rest) s = (s, some .valueError) ∧
      process_file o oracle (line :: rest) = .error .valueError := by
  have hparse : parse_appsinstalled line = .error .valueError := by
    simp only [parse_appsinstalled, hdec]
    exact parse_decoded_too_many_fields text hlen
  refine ⟨hparse, fun o oracle s rest => ?_⟩
  have hstep : (lineStep o (oracle line) line).outcome = .exn .valueError := by
    simp [lineStep, hparse]
  have hrun := runWorker_cons_exn o oracle line rest s .valueError hstep
  refine ⟨hstep, hrun, ?_⟩
  have hrun0 := runWorker_cons_exn o oracle line rest (0, 0) .valueError hstep
  unfold process_file
  rw [hrun0]

/-- C10 witness: the six-field line `"a\tb\tc\td\te\tf"` raises
`ValueError`, kills the single worker with the tally untouched, and the
orchestrator re-raises. -/
theorem c10_too_many_fields_fatal_witness :
    parse_appsinstalled [97, 9, 98, 9, 99, 9, 100, 9, 101, 9, 102] = .error .valueError ∧
    runWorker defaultOptions oracleOk [[97, 9, 98, 9, 99, 9, 100, 9, 101, 9, 102]] (0, 0) =
      ((0, 0), some .valueError) ∧
    process_file defaultOptions oracleOk [[97, 9, 98, 9, 99, 9, 100, 9, 101, 9, 102]] =
      .error .valueError := by
  have h := c10_too_many_fields_fatal [97, 9, 98, 9, 99, 9, 100, 9, 101, 9, 102]
    [97, 9, 98, 9, 99, 9, 100, 9, 101, 9, 102] (by decide) (by decide)
  have h2 := h.2 defaultOptions oracleOk (0, 0) []
  exact ⟨h.1, h2.2.1, h2.2.2⟩

theorem parse_decoded_short (text : List Nat)
    (h : (splitOnChar tabChar (stripWith isPyStrWs text)).length < 5) :
    parse_decoded text = .ok none := by
  simp only [parse_decoded]
  rw [if_pos h]

theorem parse_decoded_five (text dt di la lo ra : List Nat)
    (hsp : splitOnChar tabChar (stripWith isPyStrWs text) = [dt, di, la, lo, ra]) :
    parse_decoded text =
      if dt = [] ∨ di = [] then .ok none
      else
        match pyFloat la, pyFloat lo with
        | some latq, some lonq =>
          .ok (some ⟨dt, di, latq, lonq,
            match (splitOnChar commaChar ra).mapM pyInt with
            | some l => l
            | none => ((splitOnChar commaChar ra).filter pyIsdigit).filterMap pyInt⟩)
        | _, _ => .ok none := by
  simp [parse_decoded, hsp]

theorem lineStep_no_record (o : Options) (so : SetOutcome) (line : List Nat)
    (h : parse_appsinstalled line = .ok none) :
    lineStep o so line = ⟨.error, 0, 0, false⟩ := by
  simp [lineStep, h]

theorem lineStep_unknown_route (o : Options) (so : SetOutcome) (line : List Nat)
    (r : AppsInstalled) (h : parse_appsinstalled line = .ok (some r))
    (hroute : device_memc o r.dev_type = none) :
    lineStep o so line = ⟨.error, 0, 0, true⟩ := by
  simp [lineStep, h, hroute]

theorem lineStep_store_exn (o : Options) (line : List Nat) (r : AppsInstalled)
    (addr : List Nat) (h : parse_appsinstalled line = .ok (some r))
    (hroute : device_memc o r.dev_type = some addr) (haddr : addr ≠ [])
    (hdry : o.dry = false) :
    lineStep o .exn line = ⟨.error, 1, 1, false⟩ := by
  simp [lineStep, h, hroute, haddr, hdry, insert_appsinstalled]

theorem lineStep_write_ok (o : Options) (so : SetOutcome) (line : List Nat)
    (r : AppsInstalled) (addr : List Nat) (h : parse_appsinstalled line = .ok (some r))
    (hroute : device_memc o r.dev_type = some addr) (haddr : addr ≠ [])
    (hok : o.dry = true ∨ so = .ok) :
    (lineStep o so line).outcome = .processed := by
  rcases hok with hdry | hso
  · simp [lineStep, h, hroute, haddr, hdry, insert_appsinstalled]
  · subst hso
    rcases hdry2 : o.dry <;>
      simp [lineStep, h, hroute, haddr, hdry2, insert_appsinstalled]

/-- C5: a line that splits on tab into fewer than 5 fields, or whose
`dev_type` or `dev_id` field (of its exactly five fields) is empty,
yields no record without raising, and a worker handling it increments the
error tally by exactly one and continues with the next line. -/
theorem c5_short_or_empty_fields (line text : List Nat)
    (hdec : utf8Decode line = some text)
    (hcase : (splitOnChar tabChar (stripWith isPyStrWs text)).length < 5 ∨
      ∃ dt di la lo ra,
        splitOnChar tabChar (stripWith isPyStrWs text) = [dt, di, la, lo, ra] ∧
        (dt = [] ∨ di = [])) :
    parse_appsinstalled line = .ok none ∧
    ∀ (o : Options) (oracle : List Nat → SetOutcome) (p e : Nat)
      (rest : List (List Nat)),
      (lineStep o (oracle line) line).outcome = .error ∧
      applyOutcome (p, e) (lineStep o (oracle line) line).outcome = (p, e + 1) ∧
      runWorker o oracle (line :: rest) (p, e) = runWorker o oracle rest (p, e + 1) := by
  have hparse : parse_appsinstalled line = .ok none := by
    simp only [parse_appsinstalled, hdec]
    rcases hcase with h | ⟨dt, di, la, lo, ra, hsp, hempty⟩
    · exact parse_decoded_short text h
    · rw [parse_decoded_five text dt di la lo ra hsp, if_pos hempty]
  refine ⟨hparse, fun o oracle p e rest => ?_⟩
  have hstep := lineStep_no_record o (oracle line) line hparse
  have houtcome : (lineStep o (oracle line) line).outcome = .error := by rw [hstep]
  exact ⟨houtcome, by rw [houtcome]; rfl, runWorker_cons_error o oracle line rest (p, e) houtcome⟩

/-- C5 witness: the line `"idfa\t\t1.0\t2.0\t1"` (five fields, empty
`dev_id`) parses to no record and costs exactly one error increment. -/
theorem c5_short_or_empty_fields_witness :
    parse_appsinstalled [105, 100, 102, 97, 9, 9, 49, 46, 48, 9, 50, 46, 48, 9, 49] = .ok none ∧
    (lineStep defaultOptions
      (oracleOk [105, 100, 102, 97, 9, 9, 49, 46, 48, 9, 50, 46, 48, 9, 49])
      [105, 100, 102, 97, 9, 9, 49, 46, 48, 9, 50, 46, 48, 9, 49]).outcome = .error ∧
    applyOutcome (3, 4)
      (lineStep defaultOptions
        (oracleOk [105, 100, 102, 97, 9, 9, 49, 46, 48, 9, 50, 46, 48, 9, 49])
        [105, 100, 102, 97, 9, 9, 49, 46, 48, 9, 50, 46, 48, 9, 49]).outcome = (3, 5) := by
  have h := c5_short_or_empty_fields
    [105, 100, 102, 97, 9, 9, 49, 46, 48, 9, 50, 46, 48, 9, 49]
    [105, 100, 102, 97, 9, 9, 49, 46, 48, 9, 50, 46, 48, 9, 49]
    (by decide)
    (Or.inr ⟨[105, 100, 102, 97], [], [49, 46, 48], [50, 46, 48], [49], by decide, Or.inr rfl⟩)
  have h2 := h.2 defaultOptions oracleOk 3 4 []
  exact ⟨h.1, h2.1, h2.2.1⟩

/-- C6: a successfully parsed record whose `device_type` is not a routing
key costs exactly one error increment, logs the unknown device type, and
obtains no client handle and issues no `set`; the worker continues. -/
theorem c6_unknown_device_type (line : List Nat) (r : AppsInstalled)
    (hparse : parse_appsinstalled line = .ok (some r))
    (o : Options) (hroute : device_memc o r.dev_type = none) :
    ∀ (oracle : List Nat → SetOutcome) (p e : Nat) (rest : List (List Nat)),
      lineStep o (oracle line) line = ⟨.error, 0, 0, true⟩ ∧
      applyOutcome (p, e) (lineStep o (oracle line) line).outcome = (p, e + 1) ∧
      runWorker o oracle (line :: rest) (p, e) = runWorker o oracle rest (p, e + 1) := by
  intro oracle p e rest
  have hstep := lineStep_unknown_route o (oracle line) line r hparse hroute
  have houtcome : (lineStep o (oracle line) line).outcome = .error := by rw [hstep]
  exact ⟨hstep, by rw [houtcome]; rfl, runWorker_cons_error o oracle line rest (p, e) houtcome⟩

/-- C6 witness: the line `"unknown\tX1\t1.0\t2.0\t1,2"` routes nowhere:
one error increment, no client handle, no `set`. -/
theorem c6_unknown_device_type_witness :
    lineStep defaultOptions
      (oracleOk [117, 110, 107, 110, 111, 119, 110, 9, 88, 49, 9, 49, 46, 48, 9, 50, 46, 48, 9, 49, 44, 50])
      [117, 110, 107, 110, 111, 119, 110, 9, 88, 49, 9, 49, 46, 48, 9, 50, 46, 48, 9, 49, 44, 50] =
      ⟨.error, 0, 0, true⟩ ∧
    applyOutcome (0, 0)
      (lineStep defaultOptions
        (oracleOk [117, 110, 107, 110, 111, 119, 110, 9, 88, 49, 9, 49, 46, 48, 9, 50, 46, 48, 9, 49, 44, 50])
        [117, 110, 107, 110, 111, 119, 110, 9, 88, 49, 9, 49, 46, 48, 9, 50, 46, 48, 9, 49, 44, 50]).outcome =
      (0, 1) := by
  have h := c6_unknown_device_type
    [117, 110, 107, 110, 111, 119, 110, 9, 88, 49, 9, 49, 46, 48, 9, 50, 46, 48, 9, 49, 44, 50]
    ⟨[117, 110, 107, 110, 111, 119, 110], [88, 49], mkRat 1 1, mkRat 2 1, [1, 2]⟩
    (by decide) defaultOptions (by decide) oracleOk 0 0 []
  exact ⟨h.1, h.2.1⟩

/-- C7: in non-dry-run mode a raising store write is caught inside
`insert_appsinstalled` and reported as `False` after exactly one client
acquisition and exactly one `set` attempt (no retry); the worker then
increments the error tally once and continues — the exception never
escapes. -/
theorem c7_store_write_failure (line : List Nat) (r : AppsInstalled) (addr : List Nat)
    (hparse : parse_appsinstalled line = .ok (some r)) (o : Options)
    (hroute : device_memc o r.dev_type = some addr) (haddr : addr ≠ [])
    (hdry : o.dry = false) :
    insert_appsinstalled r false .exn =
      ⟨false, 1, 1, encodeUserApps ⟨r.lat, r.lon, r.apps⟩⟩ ∧
    ∀ (oracle : List Nat → SetOutcome), oracle line = .exn →
      ∀ (p e : Nat) (rest : List (List Nat)),
        lineStep o (oracle line) line = ⟨.error, 1, 1, false⟩ ∧
        applyOutcome (p, e) (lineStep o (oracle line) line).outcome = (p, e + 1) ∧
        runWorker o oracle (line :: rest) (p, e) = runWorker o oracle rest (p, e + 1) := by
  refine ⟨rfl, fun oracle hexn p e rest => ?_⟩
  have hstep : lineStep o (oracle line) line = ⟨.error, 1, 1, false⟩ := by
    rw [hexn]
    exact lineStep_store_exn o line r addr hparse hroute haddr hdry
  have houtcome : (lineStep o (oracle line) line).outcome = .error := by rw [hstep]
  exact ⟨hstep, by rw [houtcome]; rfl, runWorker_cons_error o oracle line rest (p, e) houtcome⟩

/-- C7 witness: the valid line `"idfa\tX1\t1.0\t2.0\t1,2"` against a
store whose `set` raises: the write is reported as failure after one
attempt and the tally gains one error. -/
theorem c7_store_write_failure_witness :
    insert_appsinstalled
      ⟨[105, 100, 102, 97], [88, 49], mkRat 1 1, mkRat 2 1, [1, 2]⟩ false .exn =
      ⟨false, 1, 1, encodeUserApps ⟨mkRat 1 1, mkRat 2 1, [1, 2]⟩⟩ ∧
    lineStep defaultOptions
      (oracleExn [105, 100, 102, 97, 9, 88, 49, 9, 49, 46, 48, 9, 50, 46, 48, 9, 49, 44, 50])
      [105, 100, 102, 97, 9, 88, 49, 9, 49, 46, 48, 9, 50, 46, 48, 9, 49, 44, 50] =
      ⟨.error, 1, 1, false⟩ ∧
    applyOutcome (5, 0)
      (lineStep defaultOptions
        (oracleExn [105, 100, 102, 97, 9, 88, 49, 9, 49, 46, 48, 9, 50, 46, 48, 9, 49, 44, 50])
        [105, 100, 102, 97, 9, 88, 49, 9, 49, 46, 48, 9, 50, 46, 48, 9, 49, 44, 50]).outcome =
      (5, 1) := by
  have h := c7_store_write_failure
    [105, 100, 102, 97, 9, 88, 49, 9, 49, 46, 48, 9, 50, 46, 48, 9, 49, 44, 50]
    ⟨[105, 100, 102, 97], [88, 49], mkRat 1 1, mkRat 2 1, [1, 2]⟩
    defaultOptions.idfa (by decide) defaultOptions (by decide) (by decide) rfl
  have h2 := h.2 oracleExn rfl 5 0 []
  exact ⟨h.1, h2.1, h2.2.1⟩

/-- C4: a five-field line with non-empty identifiers, parseable floats
and a mixed numeric/non-numeric apps field parses successfully keeping
only the purely numeric app ids in order, and a worker processing it
(with the write succeeding or in dry-run) increments the processed
counter, not the error counter. -/
theorem c4_mixed_apps_lenient (line text dt di la lo ra : List Nat) (latq lonq : ℚ)
    (hdec : utf8Decode line = some text)
    (hsp : splitOnChar tabChar (stripWith isPyStrWs text) = [dt, di, la, lo, ra])
    (hdt : dt ≠ []) (hdi : di ≠ [])
    (hmixed : (splitOnChar commaChar ra).mapM pyInt = none)
    (hla : pyFloat la = some latq) (hlo : pyFloat lo = some lonq) :
    parse_appsinstalled line =
      .ok (some ⟨dt, di, latq, lonq,
        ((splitOnChar commaChar ra).filter pyIsdigit).filterMap pyInt⟩) ∧
    ∀ (o : Options) (oracle : List Nat → SetOutcome) (addr : List Nat),
      device_memc o dt = some addr → addr ≠ [] →
      (o.dry = true ∨ oracle line = .ok) →
      (lineStep o (oracle line) line).outcome = .processed ∧
      ∀ (p e : Nat) (rest : List (List Nat)),
        applyOutcome (p, e) (lineStep o (oracle line) line).outcome = (p + 1, e) ∧
        runWorker o oracle (line :: rest) (p, e) = runWorker o oracle rest (p + 1, e) := by
  have hparse : parse_appsinstalled line =
      .ok (some ⟨dt, di, latq, lonq,
        ((splitOnChar commaChar ra).filter pyIsdigit).filterMap pyInt⟩) := by
    simp only [parse_appsinstalled, hdec]
    rw [parse_decoded_five text dt di la lo ra hsp, if_neg (by simp [hdt, hdi])]
    rw [hla, hlo, hmixed]
  refine ⟨hparse, fun o oracle addr hroute haddr hok => ?_⟩
  have houtcome := lineStep_write_ok o (oracle line) line _ addr hparse hroute haddr hok
  exact ⟨houtcome, fun p e rest =>
    ⟨by rw [houtcome]; rfl, runWorker_cons_processed o oracle line rest (p, e) houtcome⟩⟩

/-- C4 witness: the line `"idfa\tX1\t55.55\t42.42\t10,abc,30"` parses
with apps `[10, 30]` (`abc` dropped) and counts as processed. -/
theorem c4_mixed_apps_lenient_witness :
    parse_appsinstalled
      [105, 100, 102, 97, 9, 88, 49, 9, 53, 53, 46, 53, 53, 9, 52, 50, 46, 52, 50, 9,
       49, 48, 44, 97, 98, 99, 44, 51, 48] =
      .ok (some ⟨[105, 100, 102, 97], [88, 49], mkRat 1111 20, mkRat 2121 50, [10, 30]⟩) ∧
    (lineStep defaultOptions
      (oracleOk [105, 100, 102, 97, 9, 88, 49, 9, 53, 53, 46, 53, 53, 9, 52, 50, 46, 52, 50, 9,
        49, 48, 44, 97, 98, 99, 44, 51, 48])
      [105, 100, 102, 97, 9, 88, 49, 9, 53, 53, 46, 53, 53, 9, 52, 50, 46, 52, 50, 9,
       49, 48, 44, 97, 98, 99, 44, 51, 48]).outcome = .processed ∧
    applyOutcome (0, 0)
      (lineStep defaultOptions
        (oracleOk [105, 100, 102, 97, 9, 88, 49, 9, 53, 53, 46, 53, 53, 9, 52, 50, 46, 52, 50, 9,
          49, 48, 44, 97, 98, 99, 44, 51, 48])
        [105, 100, 102, 97, 9, 88, 49, 9, 53, 53, 46, 53, 53, 9, 52, 50, 46, 52, 50, 9,
         49, 48, 44, 97, 98, 99, 44, 51, 48]).outcome = (1, 0) := by
  have h := c4_mixed_apps_lenient
    [105, 100, 102, 97, 9, 88, 49, 9, 53, 53, 46, 53, 53, 9, 52, 50, 46, 52, 50, 9,
     49, 48, 44, 97, 98, 99, 44, 51, 48]
    [105, 100, 102, 97, 9, 88, 49, 9, 53, 53, 46, 53, 53, 9, 52, 50, 46, 52, 50, 9,
     49, 48, 44, 97, 98, 99, 44, 51, 48]
    [105, 100, 102, 97] [88, 49] [53, 53, 46, 53, 53] [52, 50, 46, 52, 50]
    [49, 48, 44, 97, 98, 99, 44, 51, 48] (mkRat 1111 20) (mkRat 2121 50)
    (by decide) (by decide) (by decide) (by decide) (by decide) (by decide) (by decide)
  have h2 := h.2 defaultOptions oracleOk defaultOptions.idfa (by decide) (by decide) (Or.inr rfl)
  refine ⟨?_, h2.1, ?_⟩
  · rw [h.1]
    decide
  · have h3 := (h2.2 0 0 []).1
    exact h3
